import Mathlib

/-!
Verification development for the task-analysis-and-planning backend
(`app/services/ai_service.py`, `app/database/mongodb.py`, `app/api/tasks.py`).

The Python services are shallowly embedded as pure Lean functions.  External
collaborators (the Gemini generative model, the GitHub HTTP API, MongoDB, the
system clock) are modelled as explicit inputs: an `Env` record of response
functions and a `World` record of mutable state threaded through every
operation.  Machine-level details that the claims do not touch (base64
decoding of README payloads, HTTP transport) are abstracted into the
environment; everything the claims mention (regex-based JSON repair, the
MongoDB update operators, prompt construction, session and history writes)
is translated from the source.
-/

set_option maxRecDepth 4000

/-! ## JSON values

Model of the Python objects produced by `json.loads`: numbers are restricted
to integers and strings carry no escape sequences, which covers every JSON
fragment this codebase produces or consumes in the claims. -/

inductive Json where
  | null
  | bool (b : Bool)
  | num (n : Int)
  | str (s : String)
  | arr (xs : List Json)
  | obj (kvs : List (String × Json))

/-- Python `dict` insertion: replace an existing key in place, else append. -/
def insertKV (kvs : List (String × Json)) (k : String) (v : Json) :
    List (String × Json) :=
  match kvs with
  | [] => [(k, v)]
  | (k', v') :: rest =>
    if k' = k then (k, v) :: rest else (k', v') :: insertKV rest k v

/-- Python `dict.get(k)`: `none` when absent (or when the value is not a
`dict` at all). -/
def Json.get (j : Json) (k : String) : Option Json :=
  match j with
  | .obj kvs => (kvs.find? (fun kv => kv.1 = k)).map (fun kv => kv.2)
  | _ => none

/-- Python `dict.get(k, d)`. -/
def Json.getD (j : Json) (k : String) (d : Json) : Json :=
  (j.get k).getD d

/-- Python `d[k] = v` on a parsed object (every value this is applied to in
the source is a `dict`, because it came from a brace-delimited span). -/
def Json.setKey (j : Json) (k : String) (v : Json) : Json :=
  match j with
  | .obj kvs => .obj (insertKV kvs k v)
  | _ => j

/-! ## Model of `json.loads`

A recursive-descent parser with the same strictness as Python's `json`
module on the fragments in scope: no trailing commas, object keys must be
double-quoted strings, a parse error reports the character position and a
CPython-style message, and trailing non-whitespace after the top-level value
is `Extra data`. -/

structure JErr where
  pos : Nat
  msg : String
deriving DecidableEq, Repr

def isJsonWs (c : Char) : Bool :=
  c = ' ' ∨ c = '\t' ∨ c = '\n' ∨ c = '\r'

/-- Skip whitespace, tracking the absolute character position. -/
def skipWs : List Char → Nat → List Char × Nat
  | [], p => ([], p)
  | c :: r, p => if isJsonWs c then skipWs r (p + 1) else (c :: r, p)

/-- Read the body of a string literal (opening quote already consumed). -/
def readStr : List Char → Nat → Except JErr (String × List Char × Nat)
  | [], p => .error ⟨p, "Unterminated string"⟩
  | c :: r, p =>
    if c = '"' then .ok ("", r, p + 1)
    else
      match readStr r (p + 1) with
      | .ok (s, rest, p') => .ok (⟨c :: s.data⟩, rest, p')
      | .error e => .error e

def isDigitCh (c : Char) : Bool := '0' ≤ c ∧ c ≤ '9'

def digitsVal : List Char → Nat → (Nat × List Char × Nat)
  | [], p => (0, [], p)
  | c :: r, p =>
    if isDigitCh c then
      let (n, rest, p') := digitsVal r (p + 1)
      (n, rest, p')
    else (0, c :: r, p)

/-- Read a run of digits, returning its numeric value. -/
def readDigits : List Char → Nat → Option (Nat × List Char × Nat)
  | [], _ => none
  | c :: r, p =>
    if isDigitCh c then
      match readDigits r (p + 1) with
      | some (n, rest, p') => some ((c.toNat - '0'.toNat) * 10 ^ (p' - p - 1) + n, rest, p')
      | none => some (c.toNat - '0'.toNat, r, p + 1)
    else none

mutual

def parseValue : Nat → List Char → Nat → Except JErr (Json × List Char × Nat)
  | 0, _, p => .error ⟨p, "Expecting value"⟩
  | fuel + 1, s, p =>
    let (s, p) := skipWs s p
    match s with
    | '{' :: r => parseObjBody fuel r (p + 1)
    | '[' :: r => parseArrBody fuel r (p + 1)
    | '"' :: r =>
      match readStr r (p + 1) with
      | .ok (str, rest, p') => .ok (.str str, rest, p')
      | .error e => .error e
    | 't' :: 'r' :: 'u' :: 'e' :: r => .ok (.bool true, r, p + 4)
    | 'f' :: 'a' :: 'l' :: 's' :: 'e' :: r => .ok (.bool false, r, p + 5)
    | 'n' :: 'u' :: 'l' :: 'l' :: r => .ok (.null, r, p + 4)
    | '-' :: r =>
      match readDigits r (p + 1) with
      | some (n, rest, p') => .ok (.num (-(n : Int)), rest, p')
      | none => .error ⟨p, "Expecting value"⟩
    | c :: r =>
      if isDigitCh c then
        match readDigits (c :: r) p with
        | some (n, rest, p') => .ok (.num (n : Int), rest, p')
        | none => .error ⟨p, "Expecting value"⟩
      else .error ⟨p, "Expecting value"⟩
    | [] => .error ⟨p, "Expecting value"⟩
termination_by structural fuel => fuel

/-- After the opening `\x7b`: either an immediate close or the members. -/
def parseObjBody : Nat → List Char → Nat → Except JErr (Json × List Char × Nat)
  | 0, _, p => .error ⟨p, "Expecting value"⟩
  | fuel + 1, s, p =>
    let (s, p) := skipWs s p
    match s with
    | '}' :: r => .ok (.obj [], r, p + 1)
    | '"' :: r => parseMembers fuel ('"' :: r) p []
    | _ => .error ⟨p, "Expecting property name enclosed in double quotes"⟩
termination_by structural fuel => fuel

/-- Members of an object, starting at an opening quote of a key. -/
def parseMembers : Nat → List Char → Nat → List (String × Json) →
    Except JErr (Json × List Char × Nat)
  | 0, _, p, _ => .error ⟨p, "Expecting value"⟩
  | fuel + 1, s, p, acc =>
    match s with
    | '"' :: r =>
      match readStr r (p + 1) with
      | .error e => .error e
      | .ok (key, rest, p') =>
        let (rest, p') := skipWs rest p'
        match rest with
        | ':' :: r2 =>
          match parseValue fuel r2 (p' + 1) with
          | .error e => .error e
          | .ok (v, rest2, p2) =>
            let acc := insertKV acc key v
            let (rest2, p2) := skipWs rest2 p2
            match rest2 with
            | '}' :: r3 => .ok (.obj acc, r3, p2 + 1)
            | ',' :: r3 =>
              let (r4, p4) := skipWs r3 (p2 + 1)
              match r4 with
              | '"' :: _ => parseMembers fuel r4 p4 acc
              | _ => .error ⟨p4, "Expecting property name enclosed in double quotes"⟩
            | _ => .error ⟨p2, "Expecting ',' delimiter"⟩
        | _ => .error ⟨p', "Expecting ':' delimiter"⟩
    | _ => .error ⟨p, "Expecting property name enclosed in double quotes"⟩
termination_by structural fuel => fuel

/-- After the opening `[`: either an immediate close or the items. -/
def parseArrBody : Nat → List Char → Nat → Except JErr (Json × List Char × Nat)
  | 0, _, p => .error ⟨p, "Expecting value"⟩
  | fuel + 1, s, p =>
    let (s', p') := skipWs s p
    match s' with
    | ']' :: r => .ok (.arr [], r, p' + 1)
    | _ => parseItems fuel s' p' []
termination_by structural fuel => fuel

/-- Items of an array, positioned at the start of a value. -/
def parseItems : Nat → List Char → Nat → List Json →
    Except JErr (Json × List Char × Nat)
  | 0, _, p, _ => .error ⟨p, "Expecting value"⟩
  | fuel + 1, s, p, acc =>
    match parseValue fuel s p with
    | .error e => .error e
    | .ok (v, rest, p') =>
      let (rest, p') := skipWs rest p'
      match rest with
      | ']' :: r => .ok (.arr (acc ++ [v]), r, p' + 1)
      | ',' :: r => parseItems fuel r (p' + 1) (acc ++ [v])
      | _ => .error ⟨p', "Expecting ',' delimiter"⟩
termination_by structural fuel => fuel

end

/-- Model of Python `json.loads` (see module comment for the covered
fragment). -/
def jsonLoads (s : String) : Except JErr Json :=
  let cs := s.data
  match parseValue (cs.length + 1) cs 0 with
  | .error e => .error e
  | .ok (v, rest, p) =>
    let (rest, p) := skipWs rest p
    match rest with
    | [] => .ok v
    | _ => .error ⟨p, "Extra data"⟩

/-! ## The regex repair passes of `parse_json_from_text`
(`ai_service.py` lines 55-60). -/

/-- The suffix starting at the first occurrence of `c`
(`none` when `c` does not occur). -/
def dropUntil (c : Char) : List Char → Option (List Char)
  | [] => none
  | x :: r => if x = c then some (x :: r) else dropUntil c r

/-- `re.search(r'\x7b[\s\S]*\x7d', text)`: the span from the first `\x7b` to
the last `\x7d`, when the latter lies after the former. -/
def extractSpan (s : List Char) : Option (List Char) :=
  match dropUntil '{' s with
  | none => none
  | some t =>
    match dropUntil '}' t.reverse with
    | none => none
    | some u => some u.reverse

/-- A maximal whitespace run followed by a closing bracket, as matched by
`\s*[\x7d\]]` right after a comma. -/
def splitWsBracket : List Char → Option (List Char × Char × List Char)
  | [] => none
  | c :: rest =>
    if c = '}' ∨ c = ']' then some ([], c, rest)
    else if isJsonWs c then
      match splitWsBracket rest with
      | some (ws, b, r) => some (c :: ws, b, r)
      | none => none
    else none

/-- `re.sub(r',(\\s*[\\x7d\\]])', r'\\1', s)`: delete each comma that is
followed, across whitespace only, by a closing brace or bracket; scanning
resumes after the bracket.  The fuel argument (initialised to the length of
the list, which bounds the number of scan steps) only makes the recursion
structural. -/
def fixTrailingCommasGo : Nat → List Char → List Char
  | 0, l => l
  | _, [] => []
  | fuel + 1, c :: rest =>
    if c = ',' then
      match splitWsBracket rest with
      | some (ws, b, r) => ws ++ b :: fixTrailingCommasGo fuel r
      | none => c :: fixTrailingCommasGo fuel rest
    else c :: fixTrailingCommasGo fuel rest

def fixTrailingCommas (l : List Char) : List Char :=
  fixTrailingCommasGo l.length l

/-- Everything after the first newline (`none` when there is none). -/
def afterNewline : List Char → Option (List Char)
  | [] => none
  | c :: r => if c = '\n' then some r else afterNewline r

/-- `re.sub(r'//.*?\\n', '\\n', s)`: each `//` up to the nearest newline is
replaced by that newline; a final unterminated `//` run is left alone. -/
def stripLineCommentsGo : Nat → List Char → List Char
  | 0, l => l
  | _, [] => []
  | _ + 1, [c] => [c]
  | fuel + 1, c :: d :: rest =>
    if c = '/' ∧ d = '/' then
      match afterNewline rest with
      | some r => '\n' :: stripLineCommentsGo fuel r
      | none => c :: d :: rest
    else c :: stripLineCommentsGo fuel (d :: rest)

def stripLineComments (l : List Char) : List Char :=
  stripLineCommentsGo l.length l

/-- Everything after the first `*/` (`none` when there is none). -/
def afterBlockClose : List Char → Option (List Char)
  | [] => none
  | [_] => none
  | c :: d :: r => if c = '*' ∧ d = '/' then some r else afterBlockClose (d :: r)

/-- `re.sub(r'/\\*.*?\\*/', '', s, flags=re.DOTALL)`: each `/*` up to the
nearest `*/` is removed; an unterminated `/*` is left alone. -/
def stripBlockCommentsGo : Nat → List Char → List Char
  | 0, l => l
  | _, [] => []
  | _ + 1, [c] => [c]
  | fuel + 1, c :: d :: rest =>
    if c = '/' ∧ d = '*' then
      match afterBlockClose rest with
      | some r => stripBlockCommentsGo fuel r
      | none => c :: d :: rest
    else c :: stripBlockCommentsGo fuel (d :: rest)

def stripBlockComments (l : List Char) : List Char :=
  stripBlockCommentsGo l.length l

/-! ## `parse_json_from_text` (`ai_service.py` lines 36-71)

The generative model's raw text is scanned for a brace-delimited span,
parsed, repaired once on failure, and re-parsed once; the final failure
carries the position and message of the *first* parse error (the source
formats `e.msg`/`e.pos` from the original `JSONDecodeError`, not `e2`). -/

inductive ExtractErr where
  | noJson (context : String)
  | invalid (context : String) (pos : Nat) (msg : String)
deriving DecidableEq, Repr

/-- The single bounded repair pass (lines 57-60): trailing commas, then
`//` comments, then `/* */` comments. -/
def repairJson (s : String) : String :=
  ⟨stripBlockComments (stripLineComments (fixTrailingCommas s.data))⟩

/-- The extraction logic, parameterised by the JSON parser (`json.loads` in
the source) so that the two-attempt policy can be stated as such. -/
def parse_json_core (loads : String → Except JErr Json) (text context : String) :
    Except ExtractErr Json :=
  match extractSpan text.data with
  | none => .error (.noJson context)
  | some cs =>
    let json_str : String := ⟨cs⟩
    match loads json_str with
    | .ok v => .ok v
    | .error e =>
      match loads (repairJson json_str) with
      | .ok v => .ok v
      | .error _ => .error (.invalid context e.pos e.msg)

/-- `parse_json_from_text(text, context)` with the `json.loads` model. -/
def parse_json_from_text (text context : String) : Except ExtractErr Json :=
  parse_json_core jsonLoads text context

/-- The inputs on which `parse_json_core` invokes its parser, in order. -/
def parseAttemptInputs (loads : String → Except JErr Json) (text : String) :
    List String :=
  match extractSpan text.data with
  | none => []
  | some cs =>
    match loads (⟨cs⟩ : String) with
    | .ok _ => [⟨cs⟩]
    | .error _ => [⟨cs⟩, repairJson ⟨cs⟩]

/-- Exception message rendering used when the services wrap extraction
failures (`str(e)` of the raised `Exception`). -/
def ExtractErr.render : ExtractErr → String
  | .noJson ctx => "No JSON found in " ++ ctx
  | .invalid ctx pos msg =>
    "Invalid JSON in " ++ ctx ++ ": " ++ msg ++ " at position " ++ toString pos

/-! ## Span extraction lemmas (claim C2) -/

theorem dropUntil_append_of_not_mem {c : Char} {a : List Char} (b : List Char)
    (h : c ∉ a) : dropUntil c (a ++ b) = dropUntil c b := by
  induction a with
  | nil => rfl
  | cons x xs ih =>
    simp only [List.mem_cons, not_or] at h
    simp only [List.cons_append, dropUntil]
    rw [if_neg (by exact fun hx => h.1 hx.symm)]
    exact ih h.2

theorem dropUntil_cons_self (c : Char) (r : List Char) :
    dropUntil c (c :: r) = some (c :: r) := by
  simp [dropUntil]

/-- The greedy brace scan recovers exactly `j` when the leading prose has no
opening brace, the trailing prose has no closing brace, and `j` itself is
brace-delimited. -/
theorem extractSpan_embedded (pre j post : List Char)
    (hpre : '{' ∉ pre) (hpost : '}' ∉ post)
    (hhead : j.head? = some '{') (hlast : j.getLast? = some '}') :
    extractSpan (pre ++ j ++ post) = some j := by
  obtain ⟨j1, rfl⟩ : ∃ t, j = '{' :: t := by
    cases j with
    | nil => simp at hhead
    | cons a t =>
      simp only [List.head?_cons, Option.some.injEq] at hhead
      exact ⟨t, by rw [hhead]⟩
  have h1 : dropUntil '{' (pre ++ ('{' :: j1) ++ post) = some (('{' :: j1) ++ post) := by
    rw [List.append_assoc, dropUntil_append_of_not_mem _ hpre]
    simp only [List.cons_append]
    exact dropUntil_cons_self _ _
  obtain ⟨j2, hj2⟩ : ∃ t, ('{' :: j1).reverse = '}' :: t := by
    have hh : ('{' :: j1).reverse.head? = some '}' := by
      rw [List.head?_reverse]; exact hlast
    cases h : ('{' :: j1).reverse with
    | nil => rw [h] at hh; simp at hh
    | cons a t =>
      rw [h] at hh
      simp only [List.head?_cons, Option.some.injEq] at hh
      exact ⟨t, by rw [hh]⟩
  have hpost' : '}' ∉ post.reverse := fun hm => hpost (List.mem_reverse.mp hm)
  have h2 : dropUntil '}' ((('{' :: j1) ++ post).reverse) = some (('{' :: j1).reverse) := by
    rw [List.reverse_append, dropUntil_append_of_not_mem _ hpost', hj2,
      dropUntil_cons_self]
  simp only [extractSpan, h1, h2, List.reverse_reverse]

/-- Reduction of the extractor when the span is found and the first parse
succeeds. -/
theorem parse_json_core_span_ok (loads : String → Except JErr Json)
    (text context : String) (cs : List Char) (v : Json)
    (hspan : extractSpan text.data = some cs)
    (hok : loads ⟨cs⟩ = .ok v) :
    parse_json_core loads text context = .ok v := by
  unfold parse_json_core
  rw [hspan]
  simp only [hok]

/-- C2 (counterexample): the claim as stated is false.  `\x7b\x7d` is a
well-formed JSON object (`jsonLoads` accepts it), yet with trailing prose
`\x7d` the greedy first-brace-to-last-brace scan of `parse_json_from_text`
extracts `\x7b\x7d\x7d`, which no repair pass salvages, so extraction
fails instead of returning the parsed object. -/
theorem C2_trailing_prose_counterexample :
    jsonLoads "\x7b\x7d" = .ok (Json.obj []) ∧
    parse_json_from_text ("" ++ "\x7b\x7d" ++ "\x7d") "response" =
      .error (.invalid "response" 2 "Extra data") := ⟨rfl, rfl⟩

/-- C2 (amended): for every well-formed JSON object embedded in surrounding
prose whose leading text contains no opening brace and whose trailing text
contains no closing brace, `parse_json_core` returns the parsed object. -/
theorem C2_extractor_recovers_embedded_object
    (loads : String → Except JErr Json) (pre j post context : String) (v : Json)
    (hpre : '{' ∉ pre.data) (hpost : '}' ∉ post.data)
    (hhead : j.data.head? = some '{') (hlast : j.data.getLast? = some '}')
    (hok : loads j = .ok v) :
    parse_json_core loads (pre ++ j ++ post) context = .ok v := by
  apply parse_json_core_span_ok loads _ context j.data v
  · have hdata : (pre ++ j ++ post).data = pre.data ++ j.data ++ post.data := by
      simp [String.data_append]
    rw [hdata]
    exact extractSpan_embedded _ _ _ hpre hpost hhead hlast
  · exact hok

/-- C2 (witness): concrete embedded object recovered from prose. -/
theorem C2_extractor_recovers_embedded_object_witness :
    parse_json_core jsonLoads ("model says: " ++ "\x7b\"k\": 2\x7d" ++ " end.")
      "response" = .ok (.obj [("k", .num 2)]) :=
  C2_extractor_recovers_embedded_object jsonLoads "model says: " "\x7b\"k\": 2\x7d"
    " end." "response" _ (by decide) (by decide) (by decide) (by decide) rfl

/-- C5: the repair policy of `parse_json_from_text` is bounded to exactly two
parse attempts.  (1) The parser is invoked on at most two inputs; (2) the
extraction result depends only on the parser's verdicts on those inputs, so
no third parse attempt can influence it; (3) JSON with exactly one trailing
comma before a closing bracket succeeds after the single repair pass;
(4) JSON with two independent unrepairable errors (a stray comma inside an
array and a missing `:` after a key) fails carrying the position and message
of the original error — position 9 of the first parse, not position 15 of
the post-repair parse. -/
theorem C5_two_attempt_repair_policy :
    (∀ loads text, (parseAttemptInputs loads text).length ≤ 2) ∧
    (∀ loads loads' text context,
      (∀ s ∈ parseAttemptInputs loads text, loads' s = loads s) →
      parse_json_core loads' text context = parse_json_core loads text context) ∧
    parse_json_from_text "\x7b\"a\": 1,\x7d" "plan generation" =
      .ok (.obj [("a", .num 1)]) ∧
    parse_json_from_text "\x7b\"a\": [1,], \"b\" 2\x7d" "plan generation" =
      .error (.invalid "plan generation" 9 "Expecting value") := by
  refine ⟨?_, ?_, rfl, rfl⟩
  · intro loads text
    unfold parseAttemptInputs
    cases hspan : extractSpan text.data with
    | none => simp
    | some cs => cases hl : loads ⟨cs⟩ <;> simp [hl]
  · intro loads loads' text context h
    unfold parse_json_core
    cases hspan : extractSpan text.data with
    | none => rfl
    | some cs =>
      have h1 : loads' (⟨cs⟩ : String) = loads ⟨cs⟩ := by
        apply h
        unfold parseAttemptInputs
        rw [hspan]
        cases hl : loads (⟨cs⟩ : String) <;> simp [hl]
      simp only [h1]
      clear h1
      cases hl : loads (⟨cs⟩ : String) with
      | ok v => simp
      | error e =>
        have h2 : loads' (repairJson ⟨cs⟩) = loads (repairJson ⟨cs⟩) := by
          apply h
          unfold parseAttemptInputs
          rw [hspan]
          simp [hl]
        simp only [h2]

/-- C5 (witness): the attempt-dependency part applied at a concrete input. -/
theorem C5_two_attempt_repair_policy_witness :
    parse_json_core jsonLoads "ok \x7b\"a\": 1\x7d" "c" =
      parse_json_core jsonLoads "ok \x7b\"a\": 1\x7d" "c" :=
  C5_two_attempt_repair_policy.2.1 jsonLoads jsonLoads "ok \x7b\"a\": 1\x7d" "c"
    (fun _ _ => rfl)

/-! ## MongoDB micro-model (`app/database/mongodb.py`)

Documents are ordered association lists of fields; a collection is a list of
documents.  Only the operators this repository uses are modelled
(`$set`, `$inc`, `$push`, `$setOnInsert`, upsert, equality filter on a
string field).  MongoDB rejects an update whose operators name the same
path twice (`ConflictingUpdateOperators`) before writing anything; the
Python layer catches the resulting `WriteError` in its `except` blocks. -/

inductive MVal where
  | null
  | bool (b : Bool)
  | str (s : String)
  | int (n : Int)
  | time (t : Nat)
  | json (j : Json)
  | arr (xs : List MVal)
  | doc (fs : List (String × MVal))

abbrev MDoc := List (String × MVal)

def MDoc.get : MDoc → String → Option MVal
  | [], _ => none
  | (k', v) :: rest, k => if k' = k then some v else MDoc.get rest k

def MDoc.set (d : MDoc) (k : String) (v : MVal) : MDoc :=
  match d with
  | [] => [(k, v)]
  | (k', v') :: rest =>
    if k' = k then (k, v) :: rest else (k', v') :: MDoc.set rest k v

/-- Does field `k` hold the string `s`?  (All filters in this repository are
equality filters on a string-valued key field.) -/
def MDoc.hasStr (d : MDoc) (k s : String) : Bool :=
  match d.get k with
  | some (.str t) => t = s
  | _ => false

structure UpdateOps where
  set : MDoc := []
  inc : List (String × Int) := []
  push : List (String × MVal) := []
  setOnInsert : MDoc := []

def UpdateOps.paths (u : UpdateOps) : List String :=
  u.set.map Prod.fst ++ u.inc.map Prod.fst ++ u.push.map Prod.fst ++
    u.setOnInsert.map Prod.fst

def applySet (d : MDoc) : MDoc → MDoc
  | [] => d
  | (k, v) :: rest => applySet (d.set k v) rest

/-- `$inc`: missing field starts from 0; a non-numeric field is a
`WriteError`. -/
def applyInc (d : MDoc) : List (String × Int) → Except String MDoc
  | [] => .ok d
  | (k, n) :: rest =>
    match d.get k with
    | none => applyInc (d.set k (.int n)) rest
    | some (.int m) => applyInc (d.set k (.int (m + n))) rest
    | some _ => .error "Cannot apply $inc to a value of non-numeric type"

/-- `$push`: missing field becomes a one-element array; a non-array field is
a `WriteError`. -/
def applyPush (d : MDoc) : List (String × MVal) → Except String MDoc
  | [] => .ok d
  | (k, v) :: rest =>
    match d.get k with
    | none => applyPush (d.set k (.arr [v])) rest
    | some (.arr xs) => applyPush (d.set k (.arr (xs ++ [v]))) rest
    | some _ => .error "The field must be an array"

def applyUpdate (d : MDoc) (u : UpdateOps) (inserting : Bool) :
    Except String MDoc :=
  let d := applySet d u.set
  let d := if inserting then applySet d u.setOnInsert else d
  match applyPush d u.push with
  | .error e => .error e
  | .ok d =>
    match applyInc d u.inc with
    | .error e => .error e
    | .ok d => .ok d

/-- `update_one` on the first document whose field `k` equals `sv`; on no
match and `upsert=True`, a new document seeded with the filter equality is
inserted.  Conflicting operator paths are rejected up front. -/
def updateOneGo (k sv : String) (u : UpdateOps) (upsert : Bool) :
    List MDoc → Except String (List MDoc)
  | [] =>
    if upsert then
      match applyUpdate [(k, .str sv)] u true with
      | .error e => .error e
      | .ok d => .ok [d]
    else .ok []
  | d :: ds =>
    if d.hasStr k sv then
      match applyUpdate d u false with
      | .error e => .error e
      | .ok d' => .ok (d' :: ds)
    else
      match updateOneGo k sv u upsert ds with
      | .error e => .error e
      | .ok ds' => .ok (d :: ds')

def update_one (coll : List MDoc) (k sv : String) (u : UpdateOps)
    (upsert : Bool) : Except String (List MDoc) :=
  if u.paths.Nodup then updateOneGo k sv u upsert coll
  else .error "ConflictingUpdateOperators"

def find_one : List MDoc → String → String → Option MDoc
  | [], _, _ => none
  | d :: ds, k, sv => if d.hasStr k sv then some d else find_one ds k sv

/-! ## World state and environment

`World` holds everything the Python process mutates: the two MongoDB
collections the claims touch, the in-memory `task_sessions` dict, a logical
clock standing for `datetime.utcnow()` (strictly monotone across calls), and
observation logs recording every outbound generative-model call and code
search.  `Env` holds the responses of the external collaborators. -/

structure Session where
  task : String
  analysis : Json
  created_at : Nat

structure World where
  repo_contexts : List MDoc
  conversation_history : List MDoc
  task_sessions : List (String × Session)
  clock : Nat
  gemini_calls : List String
  search_calls : List String
  http_calls : List String

def World.empty : World := ⟨[], [], [], 0, [], [], []⟩

def now (w : World) : Nat × World :=
  (w.clock, { w with clock := w.clock + 1 })

/-- Result of `requests.post(...)` + `response.json()` for a Gemini call:
HTTP status, optional top-level `error.message`, the candidate texts
(`none` models a body with no `candidates` key at all, `some []` an empty
list), and optional `promptFeedback.blockReason`. -/
structure GeminiResp where
  status : Nat
  error : Option String
  candidates : Option (List String)
  blockReason : Option String

structure SearchItem where
  path : String
  html_url : String

structure SearchResp where
  status : Nat
  items : List SearchItem

structure TreeEntry where
  path : String
  type : String

structure TreeResp where
  status : Nat
  tree : List TreeEntry

/-- README response; `content` is the base64-decoded text (decoding is
abstracted into the environment). -/
structure ReadmeResp where
  status : Nat
  content : String

/-- External collaborators, keyed by the request they receive.  An
`Except.error` models a raised `requests` exception (timeout, connection
error) or an unparseable body. -/
structure Env where
  gemini : String → Except String GeminiResp
  searchCode : String → Except String SearchResp
  getTree : String → Except String TreeResp
  getReadme : String → Except String ReadmeResp
  repoStructure : String → String → Except String Json

/-! ## Database layer (`app/database/mongodb.py` lines 254-370) -/

/-- `save_repo_context` (lines 254-280).  The update document puts
`access_count` under `$set` (inside `repo_context`, value 0) *and* under
`$inc` (value 1); `update_one` therefore raises and the `except` branch
returns `False` with nothing written. -/
def save_repo_context (w : World) (repo_full_name : String)
    (context_text : Json) (language : Json) (metadata : MVal) : World × Bool :=
  let (t1, w) := now w
  let (t2, w) := now w
  let repo_context : MDoc :=
    [("repo_full_name", .str repo_full_name),
     ("context_text", .json context_text),
     ("language", .json language),
     ("metadata", metadata),
     ("created_at", .time t1),
     ("updated_at", .time t2),
     ("access_count", .int 0)]
  match update_one w.repo_contexts "repo_full_name" repo_full_name
      { set := repo_context, inc := [("access_count", 1)] } true with
  | .error _ => (w, false)
  | .ok coll => ({ w with repo_contexts := coll }, true)

/-- `get_repo_context` (lines 283-303): find, then `$inc` the access count;
returns the document as found (pre-increment).  Any raised error yields
`None`. -/
def get_repo_context (w : World) (repo_full_name : String) :
    World × Option MDoc :=
  match find_one w.repo_contexts "repo_full_name" repo_full_name with
  | none => (w, none)
  | some context =>
    match update_one w.repo_contexts "repo_full_name" repo_full_name
        { inc := [("access_count", 1)] } false with
    | .error _ => (w, none)
    | .ok coll => ({ w with repo_contexts := coll }, some context)

def optJson : Option Json → MVal
  | none => .null
  | some j => .json j

/-- A conversation entry as built on lines 334-339. -/
def histEntry (t : Nat) (prompt : String) (analysis plan : Option Json) : MVal :=
  .doc [("timestamp", .time t), ("prompt", .str prompt),
        ("analysis", optJson analysis), ("plan", optJson plan)]

def histOps (entry : MVal) (t2 : Nat) : UpdateOps :=
  { push := [("conversations", entry)],
    setOnInsert := [("created_at", .time t2)] }

/-- `save_conversation_history` (lines 331-354): `$push` the entry,
`$setOnInsert` the creation time, upsert. -/
def save_conversation_history (w : World) (session_id prompt : String)
    (analysis plan : Option Json) : World × Bool :=
  let (t1, w) := now w
  let entry := histEntry t1 prompt analysis plan
  let (t2, w) := now w
  match update_one w.conversation_history "session_id" session_id
      (histOps entry t2) true with
  | .error _ => (w, false)
  | .ok coll => ({ w with conversation_history := coll }, true)

/-- `get_conversation_history` (lines 357-370): the stored document, or
`{"conversations": []}` when the session has no history. -/
def get_conversation_history (w : World) (session_id : String) : MDoc :=
  match find_one w.conversation_history "session_id" session_id with
  | some history => history
  | none => [("conversations", .arr [])]

/-- `add_to_history` (`ai_service.py` lines 20-26): result and failure are
swallowed. -/
def add_to_history (w : World) (session_id prompt : String)
    (analysis plan : Option Json) : World :=
  (save_conversation_history w session_id prompt analysis plan).1

/-! ## History round-trip lemmas (claim C9) -/

theorem MDoc.get_set_self (d : MDoc) (k : String) (v : MVal) :
    (MDoc.set d k v).get k = some v := by
  induction d with
  | nil => simp [MDoc.set, MDoc.get]
  | cons kv rest ih =>
    obtain ⟨k', v'⟩ := kv
    by_cases h : k' = k <;> simp [MDoc.set, MDoc.get, h, ih]

theorem MDoc.get_set_ne (d : MDoc) (k k' : String) (v : MVal) (h : k' ≠ k) :
    (MDoc.set d k v).get k' = d.get k' := by
  induction d with
  | nil => simp [MDoc.set, MDoc.get, Ne.symm h]
  | cons kv rest ih =>
    obtain ⟨k'', v''⟩ := kv
    by_cases h2 : k'' = k
    · subst h2
      simp [MDoc.set, MDoc.get, Ne.symm h]
    · by_cases h3 : k'' = k' <;> simp [MDoc.set, MDoc.get, h2, h3, h, ih]

theorem MDoc.hasStr_set_ne (d : MDoc) (k k' s : String) (v : MVal)
    (h : k' ≠ k) : (MDoc.set d k v).hasStr k' s = d.hasStr k' s := by
  simp [MDoc.hasStr, MDoc.get_set_ne d k k' v h]

theorem find_one_mem (coll : List MDoc) (k sv : String) (d : MDoc)
    (h : find_one coll k sv = some d) : d ∈ coll := by
  induction coll with
  | nil => simp [find_one] at h
  | cons d' ds ih =>
    simp only [find_one] at h
    split at h
    · cases h; exact List.mem_cons_self _ _
    · exact List.mem_cons_of_mem _ (ih h)

/-- The `conversations` array of a history document. -/
def readConvs (d : MDoc) : List MVal :=
  match d.get "conversations" with
  | some (.arr l) => l
  | _ => []

/-- What `getHistory` exposes as the entry list. -/
def readConversations (w : World) (sid : String) : List MVal :=
  readConvs (get_conversation_history w sid)

def entryTimestamp : MVal → Nat
  | .doc fs => match MDoc.get fs "timestamp" with
    | some (.time t) => t
    | _ => 0
  | _ => 0

def entryPrompt : MVal → String
  | .doc fs => match MDoc.get fs "prompt" with
    | some (.str pr) => pr
    | _ => ""
  | _ => ""

/-- The document created by the upsert branch of the history `$push`. -/
def newHistDoc (sid : String) (entry : MVal) (t2 : Nat) : MDoc :=
  [("session_id", .str sid), ("created_at", .time t2),
   ("conversations", .arr [entry])]

/-- Expected shape of the collection after a history `$push` upsert. -/
def pushResult (sid : String) (entry : MVal) (t2 : Nat) :
    List MDoc → List MDoc
  | [] => [newHistDoc sid entry t2]
  | d :: ds =>
    if d.hasStr "session_id" sid then
      d.set "conversations" (.arr (readConvs d ++ [entry])) :: ds
    else d :: pushResult sid entry t2 ds

theorem updateOneGo_histOps (sid : String) (entry : MVal) (t2 : Nat)
    (coll : List MDoc)
    (hwf : ∀ d ∈ coll, ∃ l, MDoc.get d "conversations" = some (.arr l)) :
    updateOneGo "session_id" sid (histOps entry t2) true coll =
      .ok (pushResult sid entry t2 coll) := by
  induction coll with
  | nil => rfl
  | cons d ds ih =>
    obtain ⟨l, hl⟩ := hwf d (List.mem_cons_self d ds)
    have ih' := ih (fun d' hd' => hwf d' (List.mem_cons_of_mem d hd'))
    cases hstr : MDoc.hasStr d "session_id" sid with
    | true =>
      simp only [updateOneGo, pushResult, hstr, if_true]
      simp [applyUpdate, histOps, applySet, applyPush, applyInc, hl, readConvs]
    | false =>
      simp only [updateOneGo, pushResult, hstr, Bool.false_eq_true, if_false]
      rw [ih']

/-- The entry list visible through `find_one`, `[]` when absent. -/
def collRead (coll : List MDoc) (sid : String) : List MVal :=
  match find_one coll "session_id" sid with
  | some d => readConvs d
  | none => []

theorem collRead_pushResult (sid : String) (entry : MVal) (t2 : Nat)
    (coll : List MDoc) :
    collRead (pushResult sid entry t2 coll) sid = collRead coll sid ++ [entry] := by
  induction coll with
  | nil =>
    simp [pushResult, collRead, find_one, newHistDoc, MDoc.hasStr, MDoc.get,
      readConvs]
  | cons d ds ih =>
    cases hstr : MDoc.hasStr d "session_id" sid with
    | true =>
      have hset : (MDoc.set d "conversations"
          (.arr (readConvs d ++ [entry]))).hasStr "session_id" sid = true := by
        rw [MDoc.hasStr_set_ne _ _ _ _ _ (by decide)]
        exact hstr
      simp only [pushResult, hstr, if_true, collRead, find_one, hset]
      simp [readConvs, MDoc.get_set_self]
    | false =>
      simp only [pushResult, hstr, Bool.false_eq_true, if_false]
      simp only [collRead, find_one, hstr, Bool.false_eq_true, if_false] at ih ⊢
      exact ih

/-- Well-formedness of one history document relative to a clock bound:
`conversations` is an array, its timestamps are strictly increasing, and all
lie below the bound. -/
def DocWF (c : Nat) (d : MDoc) : Prop :=
  ∃ l, MDoc.get d "conversations" = some (.arr l) ∧
    List.Chain' (· < ·) (l.map entryTimestamp) ∧
    ∀ e ∈ l, entryTimestamp e < c

theorem DocWF.mono {c c' : Nat} (h : c ≤ c') {d : MDoc} :
    DocWF c d → DocWF c' d :=
  fun ⟨l, h1, h2, h3⟩ => ⟨l, h1, h2, fun e he => lt_of_lt_of_le (h3 e he) h⟩

theorem entryTimestamp_histEntry (t : Nat) (prompt : String)
    (a p : Option Json) : entryTimestamp (histEntry t prompt a p) = t := rfl

theorem entryPrompt_histEntry (t : Nat) (prompt : String)
    (a p : Option Json) : entryPrompt (histEntry t prompt a p) = prompt := rfl

theorem pushResult_DocWF (sid : String) (t1 t2 c c' : Nat) (prompt : String)
    (a p : Option Json) (coll : List MDoc)
    (hc : ∀ d ∈ coll, DocWF c d) (h1 : c ≤ t1) (h2 : t1 < c')
    (h3 : c ≤ c') :
    ∀ d' ∈ pushResult sid (histEntry t1 prompt a p) t2 coll, DocWF c' d' := by
  induction coll with
  | nil =>
    intro d' hd'
    simp only [pushResult, List.mem_singleton] at hd'
    subst hd'
    refine ⟨[histEntry t1 prompt a p], rfl, by simp, ?_⟩
    intro e he
    simp only [List.mem_singleton] at he
    subst he
    simpa [entryTimestamp_histEntry] using h2
  | cons d ds ih =>
    intro d' hd'
    cases hstr : MDoc.hasStr d "session_id" sid with
    | true =>
      simp only [pushResult, hstr, if_true, List.mem_cons] at hd'
      rcases hd' with rfl | hmem
      · obtain ⟨l, hl, hch, hb⟩ := hc d (List.mem_cons_self d ds)
        have hrc : readConvs d = l := by simp [readConvs, hl]
        refine ⟨l ++ [histEntry t1 prompt a p], ?_, ?_, ?_⟩
        · rw [MDoc.get_set_self, hrc]
        · rw [List.map_append, List.chain'_append]
          refine ⟨hch, by simp, ?_⟩
          intro x hx y hy
          simp only [List.map_cons, List.map_nil, List.head?_cons,
            Option.mem_def, Option.some.injEq] at hy
          have hx' : x ∈ l.map entryTimestamp := List.mem_of_mem_getLast? hx
          obtain ⟨e, he, rfl⟩ := List.mem_map.mp hx'
          rw [entryTimestamp_histEntry] at hy
          subst hy
          exact lt_of_lt_of_le (hb e he) h1
        · intro e he
          rcases List.mem_append.mp he with he | he
          · exact lt_of_lt_of_le (hb e he) h3
          · simp only [List.mem_singleton] at he
            subst he
            simpa [entryTimestamp_histEntry] using h2
      · exact DocWF.mono h3 (hc d' (List.mem_cons_of_mem d hmem))
    | false =>
      simp only [pushResult, hstr, Bool.false_eq_true, if_false,
        List.mem_cons] at hd'
      rcases hd' with rfl | hmem
      · exact DocWF.mono h3 (hc d' (List.mem_cons_self _ _))
      · exact ih (fun d'' h'' => hc d'' (List.mem_cons_of_mem d h'')) d' hmem

/-- Process-wide well-formedness of the history collection. -/
def HistWF (w : World) : Prop :=
  ∀ d ∈ w.conversation_history, DocWF w.clock d

theorem readConversations_eq (w : World) (sid : String) :
    readConversations w sid = collRead w.conversation_history sid := by
  unfold readConversations get_conversation_history collRead
  cases find_one w.conversation_history "session_id" sid <;> rfl

theorem save_conversation_history_spec (w : World) (sid prompt : String)
    (a p : Option Json) (hwf : HistWF w) :
    (save_conversation_history w sid prompt a p).1.conversation_history =
      pushResult sid (histEntry w.clock prompt a p) (w.clock + 1)
        w.conversation_history ∧
    (save_conversation_history w sid prompt a p).1.clock = w.clock + 2 ∧
    (save_conversation_history w sid prompt a p).2 = true := by
  have hok := updateOneGo_histOps sid (histEntry w.clock prompt a p)
    (w.clock + 1) w.conversation_history
    (fun d hd => (hwf d hd).imp fun l hl => hl.1)
  have hupd : update_one w.conversation_history "session_id" sid
      (histOps (histEntry w.clock prompt a p) (w.clock + 1)) true =
      .ok (pushResult sid (histEntry w.clock prompt a p) (w.clock + 1)
        w.conversation_history) := by
    unfold update_one
    rw [if_pos (by simp [histOps, UpdateOps.paths])]
    exact hok
  simp [save_conversation_history, now, hupd]

/-- Folding a batch of history appends for one session. -/
def histFold (w : World) (sid : String)
    (batch : List (String × Option Json × Option Json)) : World :=
  batch.foldl
    (fun w it => (save_conversation_history w sid it.1 it.2.1 it.2.2).1) w

/-- C9: appending history entries and reading them back yields them in
exactly the order appended with strictly ascending timestamps; a missing
session id reads as the empty entry list and is created by the first
append; an existing record gets each new entry pushed to the end (the
read-back equals the old list extended in append order). -/
theorem C9_history_append_order (w : World) (sid : String)
    (batch : List (String × Option Json × Option Json)) (hwf : HistWF w) :
    HistWF (histFold w sid batch) ∧
    (readConversations (histFold w sid batch) sid).map entryPrompt =
      (readConversations w sid).map entryPrompt ++ batch.map Prod.fst ∧
    List.Chain' (· < ·)
      ((readConversations (histFold w sid batch) sid).map entryTimestamp) ∧
    (find_one w.conversation_history "session_id" sid = none →
      readConversations w sid = [] ∧
      (batch ≠ [] →
        find_one (histFold w sid batch).conversation_history "session_id" sid
          ≠ none)) := by
  have main : ∀ batch (w : World), HistWF w →
      HistWF (histFold w sid batch) ∧
      (readConversations (histFold w sid batch) sid).map entryPrompt =
        (readConversations w sid).map entryPrompt ++ batch.map Prod.fst := by
    intro batch
    induction batch with
    | nil => intro w hw; exact ⟨hw, by simp [histFold]⟩
    | cons it rest ih =>
      intro w hw
      obtain ⟨hcoll, hclock, -⟩ :=
        save_conversation_history_spec w sid it.1 it.2.1 it.2.2 hw
      have hw1 : HistWF (save_conversation_history w sid it.1 it.2.1 it.2.2).1 := by
        intro d hd
        rw [hclock]
        rw [hcoll] at hd
        exact pushResult_DocWF sid w.clock (w.clock + 1) w.clock (w.clock + 2)
          it.1 it.2.1 it.2.2 w.conversation_history hw (le_refl _)
          (by omega) (by omega) d hd
      have hread1 : readConversations
          (save_conversation_history w sid it.1 it.2.1 it.2.2).1 sid =
          readConversations w sid ++ [histEntry w.clock it.1 it.2.1 it.2.2] := by
        rw [readConversations_eq, readConversations_eq, hcoll,
          collRead_pushResult]
      obtain ⟨ih1, ih2⟩ :=
        ih (save_conversation_history w sid it.1 it.2.1 it.2.2).1 hw1
      have hfold : histFold w sid (it :: rest) =
          histFold (save_conversation_history w sid it.1 it.2.1 it.2.2).1
            sid rest := rfl
      refine ⟨hfold ▸ ih1, ?_⟩
      rw [hfold, ih2, hread1, List.map_append]
      simp [entryPrompt_histEntry]
  obtain ⟨hwf', hmap⟩ := main batch w hwf
  refine ⟨hwf', hmap, ?_, ?_⟩
  · rw [readConversations_eq]
    unfold collRead
    cases hf : find_one (histFold w sid batch).conversation_history
        "session_id" sid with
    | none => simp
    | some d =>
      obtain ⟨l, hl, hch, -⟩ := hwf' d (find_one_mem _ _ _ _ hf)
      simpa [readConvs, hl] using hch
  · intro hnone
    have hold : readConversations w sid = [] := by
      rw [readConversations_eq]; unfold collRead; rw [hnone]
    refine ⟨hold, ?_⟩
    intro hne hcontra
    have hnil : readConversations (histFold w sid batch) sid = [] := by
      rw [readConversations_eq]; unfold collRead; rw [hcontra]
    rw [hnil, hold] at hmap
    simp only [List.map_nil, List.nil_append] at hmap
    exact hne (List.map_eq_nil_iff.mp hmap.symm)

/-- C9 (witness): three appends on a fresh world read back in order. -/
theorem C9_history_append_order_witness :
    (readConversations (histFold World.empty "s"
      [("p1", none, none), ("p2", none, none), ("p3", none, none)]) "s").map
        entryPrompt =
      (readConversations World.empty "s").map entryPrompt ++
        ["p1", "p2", "p3"] :=
  (C9_history_append_order World.empty "s"
    [("p1", none, none), ("p2", none, none), ("p3", none, none)]
    (fun d hd => by simp [World.empty] at hd)).2.1

/-! ## `search_codebase_for_keywords` (`ai_service.py` lines 73-101) -/

structure Finding where
  file : String
  keyword : String
  url : String

def search_url (owner repo keyword : String) : String :=
  "https://api.github.com/search/code?q=" ++ keyword ++ "+repo:" ++
    owner ++ "/" ++ repo

def mkFinding (k : String) (it : SearchItem) : Finding :=
  ⟨it.path, k, it.html_url⟩

/-- The `for keyword in keywords[:3]` loop.  Returns the URLs requested (in
order) and either the accumulated results or the first raised exception
(which aborts the loop; the caller's `except` then returns `[]`). -/
def searchLoop (env : Env) (owner repo : String) :
    List String → List String × Except String (List Finding)
  | [] => ([], .ok [])
  | k :: ks =>
    let url := search_url owner repo k
    match env.searchCode url with
    | .error e => ([url], .error e)
    | .ok resp =>
      let here := if resp.status = 200
        then (resp.items.take 5).map (mkFinding k) else []
      match searchLoop env owner repo ks with
      | (urls, .error e) => (url :: urls, .error e)
      | (urls, .ok rest) => (url :: urls, .ok (here ++ rest))

def search_codebase_for_keywords (env : Env) (w : World) (owner repo : String)
    (keywords : List String) : List Finding × World :=
  let r := searchLoop env owner repo (keywords.take 3)
  let w := { w with search_calls := w.search_calls ++ r.1 }
  match r.2 with
  | .ok results => (results, w)
  | .error _ => ([], w)

/-- The contribution of a single keyword: up to 5 hits on HTTP 200, nothing
on any other status. -/
def perKeywordHits (env : Env) (owner repo k : String) : List Finding :=
  match env.searchCode (search_url owner repo k) with
  | .ok resp =>
    if resp.status = 200 then (resp.items.take 5).map (mkFinding k) else []
  | .error _ => []

theorem searchLoop_prefix (env : Env) (owner repo : String) (ks : List String) :
    (searchLoop env owner repo ks).1 <+: ks.map (search_url owner repo) := by
  induction ks with
  | nil => simp [searchLoop]
  | cons k rest ih =>
    simp only [searchLoop, List.map_cons]
    cases henv : env.searchCode (search_url owner repo k) with
    | error e => exact ⟨rest.map (search_url owner repo), rfl⟩
    | ok resp =>
      cases hrec : searchLoop env owner repo rest with
      | mk urls res =>
        cases res with
        | error e =>
          simp only []
          rw [hrec] at ih
          exact (List.prefix_cons_inj _).mpr ih
        | ok found =>
          simp only []
          rw [hrec] at ih
          exact (List.prefix_cons_inj _).mpr ih

theorem searchLoop_all_ok (env : Env) (owner repo : String) (ks : List String)
    (h : ∀ k ∈ ks, (env.searchCode (search_url owner repo k)).isOk) :
    searchLoop env owner repo ks =
      (ks.map (search_url owner repo),
       .ok (ks.flatMap (perKeywordHits env owner repo))) := by
  induction ks with
  | nil => simp [searchLoop]
  | cons k rest ih =>
    have hk := h k (List.mem_cons_self _ _)
    have ih' := ih (fun k' hk' => h k' (List.mem_cons_of_mem _ hk'))
    simp only [searchLoop, List.map_cons, List.flatMap_cons]
    cases henv : env.searchCode (search_url owner repo k) with
    | error e => rw [henv] at hk; simp [Except.isOk, Except.toBool] at hk
    | ok resp =>
      rw [ih']
      simp [perKeywordHits, henv]

/-- C4: the keyword batch issues one remote call per keyword for at most the
first 3 keywords (the requested URLs are a prefix of those of
`keywords[:3]`, in order, all logged); when no call raises, the result is
the in-order concatenation of per-keyword contributions, where a keyword
with a non-success status contributes nothing (it is skipped, the batch
continues) and a successful keyword contributes at most 5 hits. -/
theorem C4_search_three_keywords_skip_failures (env : Env) (w : World)
    (owner repo : String) (keywords : List String) :
    ((search_codebase_for_keywords env w owner repo keywords).2.search_calls =
      w.search_calls ++ (searchLoop env owner repo (keywords.take 3)).1) ∧
    ((searchLoop env owner repo (keywords.take 3)).1 <+:
      (keywords.take 3).map (search_url owner repo)) ∧
    ((searchLoop env owner repo (keywords.take 3)).1.length ≤ 3) ∧
    ((∀ k ∈ keywords.take 3,
        (env.searchCode (search_url owner repo k)).isOk) →
      (search_codebase_for_keywords env w owner repo keywords).1 =
        (keywords.take 3).flatMap (perKeywordHits env owner repo)) ∧
    (∀ k, (perKeywordHits env owner repo k).length ≤ 5) := by
  refine ⟨?_, searchLoop_prefix env owner repo _, ?_, ?_, ?_⟩
  · unfold search_codebase_for_keywords
    cases hr : searchLoop env owner repo (keywords.take 3) with
    | mk urls res => cases res <;> simp
  · have hp := searchLoop_prefix env owner repo (keywords.take 3)
    have := hp.length_le
    have hlen : ((keywords.take 3).map (search_url owner repo)).length ≤ 3 := by
      simp [List.length_take]
    omega
  · intro h
    unfold search_codebase_for_keywords
    rw [searchLoop_all_ok env owner repo _ h]
  · intro k
    unfold perKeywordHits
    cases env.searchCode (search_url owner repo k) with
    | error e => simp
    | ok resp =>
      by_cases hs : resp.status = 200 <;>
        simp [hs, List.length_take, List.length_map]

/-- Environment for the C4 witness: searching keyword `b` gets HTTP 403,
every other keyword gets HTTP 200 with one hit. -/
def envC4 : Env :=
  ⟨fun _ => .error "unused",
   fun u => if u = search_url "o" "r" "b"
     then .ok ⟨403, [⟨"x.py", "ux"⟩]⟩
     else .ok ⟨200, [⟨"a.py", "ua"⟩]⟩,
   fun _ => .error "unused", fun _ => .error "unused",
   fun _ _ => .error "unused"⟩

/-- C4 (witness): a concrete batch of four keywords where the second
keyword's search fails with HTTP 403 and is skipped while the others
contribute, and the fourth keyword is never searched. -/
theorem C4_search_three_keywords_skip_failures_witness :
    (search_codebase_for_keywords envC4 World.empty "o" "r"
        ["a", "b", "c", "d"]).1 =
      (["a", "b", "c", "d"].take 3).flatMap (perKeywordHits envC4 "o" "r") :=
  (C4_search_three_keywords_skip_failures envC4 World.empty "o" "r"
    ["a", "b", "c", "d"]).2.2.2.1 (by decide)

/-! ## Prompt construction for `analyze_task_with_llm`
(`ai_service.py` lines 103-257)

Python f-string rendering of non-string scalars is modelled by `pyStr`;
rendering of nested containers into prompt text (which no code path under a
claim exercises) is abstracted to a placeholder, and direct `m['key']`
indexing inside prompt comprehensions is totalised with a `None` default
instead of modelling the `KeyError`. -/

def joinSep (sep : String) : List String → String
  | [] => ""
  | [x] => x
  | x :: xs => x ++ sep ++ joinSep sep xs

def pyStr : Json → String
  | .null => "None"
  | .bool true => "True"
  | .bool false => "False"
  | .num n => toString n
  | .str s => s
  | .arr _ => "[...]"
  | .obj _ => "\x7b...\x7d"

/-- Python truthiness of a parsed JSON value. -/
def truthyJson : Json → Bool
  | .null => false
  | .bool b => b
  | .num n => n ≠ 0
  | .str s => s ≠ ""
  | .arr xs => ¬ xs.isEmpty
  | .obj kvs => ¬ kvs.isEmpty

def truthyStr : Option String → Bool
  | none => false
  | some s => s ≠ ""

/-- `f"- {m['module_name']}: {m['description']}"`. -/
def moduleLine (m : Json) : String :=
  "- " ++ pyStr (m.getD "module_name" .null) ++ ": " ++
    pyStr (m.getD "description" .null)

/-- Lines 114-118. -/
def modulesText (rc : Json) : String :=
  match rc.get "key_modules" with
  | some (.arr (x :: xs)) =>
    "\n\nKey Modules:\n" ++ joinSep "\n" (((x :: xs).take 5).map moduleLine)
  | _ => ""

/-- Lines 112-126: the project-context block of the type-detection prompt. -/
def contextText1 (rc : Option Json) : String :=
  match rc with
  | none => ""
  | some rc =>
    if truthyJson rc then
      "\n**Project Context:**\n- Summary: " ++
        pyStr (rc.getD "project_summary" (.str "N/A")) ++
      "\n- Architecture: " ++
        pyStr (rc.getD "architecture_overview" (.str "N/A")) ++
      "\n- Tech Stack: " ++
        pyStr ((rc.getD "tech_stack" (.obj [])).getD "language" (.str "N/A")) ++
      ", " ++
        pyStr ((rc.getD "tech_stack" (.obj [])).getD "framework_backend"
          (.str "N/A")) ++
      "\n" ++ modulesText rc ++ "\n"
    else ""

/-- Lines 131-154. -/
def type_detection_prompt (rc : Option Json) (task : String) : String :=
  "Analyze this task with full project context.\n\n" ++ contextText1 rc ++
  "\n\nTask: \"" ++ task ++ "\"\n\nTask: \"" ++ task ++ "\"\n\n" ++
  "Determine:\n1. Is this adding a NEW feature that doesn\x27t exist?\n" ++
  "2. Is this UPDATING/MODIFYING an existing feature?\n" ++
  "3. Is it BOTH (adding new + modifying existing)?\n\n" ++
  "Extract keywords that might exist in the codebase (e.g., \"dashboard\", \"payment\", \"login\").\n\n" ++
  "CRITICAL: Return ONLY valid JSON. No markdown, no code blocks, no extra text.\n" ++
  "Do not use trailing commas. Ensure all strings are properly quoted.\n\n" ++
  "Respond with valid JSON:\n\x7b\n  \"task_type\": \"new\" | \"update\" | \"both\",\n  \"keywords\": [\"keyword1\", \"keyword2\"],\n  \"reasoning\": \"Brief explanation\"\n\x7d"

def strList : Json → List String
  | .arr xs => xs.map pyStr
  | _ => []

/-- Lines 212-218: the repository block of the clarity prompt. -/
def contextText2 (rc : Option Json) : String :=
  match rc with
  | none => ""
  | some rc =>
    if truthyJson rc then
      "\nRepository Info:\n- Files: " ++
        joinSep ", " ((strList (rc.getD "files" (.arr []))).take 15) ++
      "\n- Tech Stack: " ++
        joinSep ", " (strList (rc.getD "tech_stack" (.arr []))) ++ "\n"
    else ""

/-- `task_type in ['update', 'both']` (only a string compares equal). -/
def isUpdateType (tt : Json) : Bool :=
  match tt with
  | .str s => s = "update" ∨ s = "both"
  | _ => false

/-- Line 226. -/
def no_code_warning : String :=
  "\n\n⚠️ WARNING: Task mentions updating existing features, but NO related code was found in the repository!"

/-- `f"- {f['file']} (contains '{f['keyword']}')"`. -/
def findingLine (f : Finding) : String :=
  "- " ++ f.file ++ " (contains \x27" ++ f.keyword ++ "\x27)"

/-- Lines 220-226. -/
def findingsText (findings : List Finding) (tt : Json) : String :=
  match findings with
  | _ :: _ =>
    "\n\nExisting Code Found:\n" ++
      joinSep "\n" ((findings.take 5).map findingLine)
  | [] => if isUpdateType tt then no_code_warning else ""

/-- Lines 228-234: everything of the clarity prompt before the findings
block. -/
def clarity_head (rc : Option Json) (task : String) (tt : Json) : String :=
  "Analyze if this task is clear enough to implement.\n\n" ++ contextText2 rc ++
  "\n\nTask: \"" ++ task ++ "\"\nTask Type: " ++ pyStr tt ++ "\n"

/-- Lines 236-257: everything of the clarity prompt after the findings
block. -/
def clarity_tail : String :=
  "\n\nRules:\n1. If task type is \"update\" or \"both\" but NO existing code found → Ask questions about what exists\n" ++
  "2. If task is vague (e.g., \"get dashboard ready\") → Ask specific questions\n" ++
  "3. If task is clear and specific → Mark as clear\n\n" ++
  "When asking questions, provide a helpful explanation for WHY each question matters.\n\n" ++
  "CRITICAL: Return ONLY valid JSON. No markdown, no code blocks, no extra text.\n" ++
  "Do not use trailing commas. Ensure all strings are properly quoted.\n\n" ++
  "Respond with valid JSON in this format:\n\x7b\"status\": \"clear\", \"analysis\": \"Task is clear\"\x7d\nOR\n\x7b\n  \"status\": \"ambiguous\", \n  \"questions\": [\n    \x7b\n      \"question\": \"What specific AI model should be used?\",\n      \"explanation\": \"Different AI models have different capabilities and costs. This helps us choose the right tool for your needs.\"\n    \x7d\n  ]\n\x7d"

/-- Lines 228-257. -/
def clarity_prompt (rc : Option Json) (task : String) (tt : Json)
    (ftext : String) : String :=
  clarity_head rc task tt ++ ftext ++ clarity_tail

/-- Shared handling of a Gemini HTTP outcome: a raised request error
propagates; a body with an `error` key raises `Gemini API error: ...`; a
missing or empty candidate list raises either the block-reason message
(where the call site checks `promptFeedback`) or the call-site-specific
no-candidates message; otherwise the first candidate text is returned. -/
def geminiTextWith (noCand : String) (blockPrefix : Option String)
    (r : Except String GeminiResp) : Except String String :=
  match r with
  | .error e => .error e
  | .ok resp =>
    match resp.error with
    | some m => .error ("Gemini API error: " ++ m)
    | none =>
      match resp.candidates with
      | some (t :: _) => .ok t
      | _ =>
        match blockPrefix, resp.blockReason with
        | some pre, some br => .error (pre ++ br)
        | _, _ => .error noCand

/-- Keywords as iterated by the search loop (each is rendered into the
search URL with `str()`); a non-list raises inside the search helper's
`try`, which returns `[]` — the same as iterating nothing. -/
def keywordStrs : Json → List String
  | .arr xs => xs.map pyStr
  | _ => []

def findingsJson (fs : List Finding) : Json :=
  .arr (fs.map fun f =>
    .obj [("file", .str f.file), ("keyword", .str f.keyword),
          ("url", .str f.url)])

/-- `task_sessions[k] = v`. -/
def setAssoc (m : List (String × Session)) (k : String) (v : Session) :
    List (String × Session) :=
  match m with
  | [] => [(k, v)]
  | (k', v') :: rest =>
    if k' = k then (k, v) :: rest else (k', v') :: setAssoc rest k v

/-- `task_sessions.get(k)` / `k in task_sessions`. -/
def getAssoc : List (String × Session) → String → Option Session
  | [], _ => none
  | (k', v) :: rest, k => if k' = k then some v else getAssoc rest k

/-- `analyze_task_with_llm` up to the assembly of `result`
(`ai_service.py` lines 103-301): type detection, conditional codebase
search, clarity analysis, and merging of the type info into the clarity
result.  No session or history write happens here; every raised exception
surfaces as `.error`. -/
def analyze_core (env : Env) (w : World) (task : String)
    (repo_context : Option Json) (owner repo : Option String) :
    World × Except String Json :=
  let p1 := type_detection_prompt repo_context task
  let w := { w with gemini_calls := w.gemini_calls ++ [p1] }
  match geminiTextWith "Gemini API returned no candidates" none
      (env.gemini p1) with
  | .error e => (w, .error e)
  | .ok text1 =>
    match parse_json_from_text text1 "task type detection" with
    | .error e => (w, .error e.render)
    | .ok info =>
      match info.get "task_type", info.get "keywords", info.get "reasoning" with
      | some tt, some kws, some _ =>
        let sr :=
          if isUpdateType tt ∧ truthyStr owner ∧ truthyStr repo then
            search_codebase_for_keywords env w (owner.getD "") (repo.getD "")
              (keywordStrs kws)
          else ([], w)
        let findings := sr.1
        let w := sr.2
        let p2 := clarity_prompt repo_context task tt
          (findingsText findings tt)
        let w := { w with gemini_calls := w.gemini_calls ++ [p2] }
        match geminiTextWith
            "Gemini API returned no candidates. This might be due to safety filters or API issues."
            (some "Content blocked by safety filters: ")
            (env.gemini p2) with
        | .error e => (w, .error e)
        | .ok text2 =>
          match parse_json_from_text text2 "clarity analysis" with
          | .error e => (w, .error e.render)
          | .ok result =>
            let result := result.setKey "task_type" tt
            let result := result.setKey "keywords" kws
            let result := result.setKey "codebase_findings"
              (findingsJson findings)
            (w, .ok result)
      | _, _, _ => (w, .error "KeyError")

/-- `analyze_task_with_llm` (lines 103-322): on success, store the session
(lines 303-309) and append the history entry (line 312, failures swallowed);
any earlier exception aborts the whole call, re-raised as
`Gemini API failed: ...`. -/
def analyze_task_with_llm (env : Env) (w : World) (task : String)
    (session_id : Option String) (repo_context : Option Json)
    (owner repo : Option String) : World × Except String Json :=
  match analyze_core env w task repo_context owner repo with
  | (w, .error e) => (w, .error ("Gemini API failed: " ++ e))
  | (w, .ok result) =>
    if truthyStr session_id then
      let sid := session_id.getD ""
      let tw := now w
      let sess : Session := ⟨task, result, tw.1⟩
      let w := { tw.2 with task_sessions := setAssoc tw.2.task_sessions sid sess }
      let w := add_to_history w sid task (some result) none
      (w, .ok result)
    else (w, .ok result)

/-! ## Claim C3: classification failures are atomic -/

theorem search_world_eq (env : Env) (w : World) (owner repo : String)
    (kws : List String) :
    (search_codebase_for_keywords env w owner repo kws).2 =
      { w with search_calls :=
          w.search_calls ++ (searchLoop env owner repo (kws.take 3)).1 } := by
  unfold search_codebase_for_keywords
  dsimp only
  cases h : (searchLoop env owner repo (kws.take 3)).2 <;> simp [h]

theorem analyze_core_preserves_stores (env : Env) (w : World) (task : String)
    (rc : Option Json) (owner repo : Option String) :
    (analyze_core env w task rc owner repo).1.task_sessions =
      w.task_sessions ∧
    (analyze_core env w task rc owner repo).1.conversation_history =
      w.conversation_history := by
  unfold analyze_core
  dsimp only
  repeat' split
  all_goals simp [search_world_eq]

/-- C3: whenever classification fails (any model-call failure or
unrecoverable extraction failure), the whole operation returns an error and
both the in-memory session store and the durable conversation history are
exactly as before the call — the session write and history append only
happen after the full result is assembled. -/
theorem C3_classification_failure_atomic (env : Env) (w : World)
    (task : String) (sid : Option String) (rc : Option Json)
    (owner repo : Option String) (e : String)
    (h : (analyze_task_with_llm env w task sid rc owner repo).2 = .error e) :
    (analyze_task_with_llm env w task sid rc owner repo).1.task_sessions =
      w.task_sessions ∧
    (analyze_task_with_llm env w task sid rc owner repo).1.conversation_history =
      w.conversation_history := by
  have hp := analyze_core_preserves_stores env w task rc owner repo
  unfold analyze_task_with_llm at h ⊢
  cases hcore : analyze_core env w task rc owner repo with
  | mk w' res =>
    rw [hcore] at hp
    cases res with
    | error e' => simpa using hp
    | ok result =>
      rw [hcore] at h
      simp only [] at h
      split at h <;> simp at h

/-- Environment in which every Gemini call raises (network timeout). -/
def envDown : Env :=
  ⟨fun _ => .error "timeout", fun _ => .error "timeout",
   fun _ => .error "timeout", fun _ => .error "timeout",
   fun _ _ => .error "timeout"⟩

/-- C3 (witness): a failing classification on a fresh world leaves the
session store and history untouched. -/
theorem C3_classification_failure_atomic_witness :
    (analyze_task_with_llm envDown World.empty "add a dark mode toggle"
      (some "s1") none none none).1.task_sessions =
      World.empty.task_sessions ∧
    (analyze_task_with_llm envDown World.empty "add a dark mode toggle"
      (some "s1") none none none).1.conversation_history =
      World.empty.conversation_history :=
  C3_classification_failure_atomic envDown World.empty
    "add a dark mode toggle" (some "s1") none none none
    "Gemini API failed: timeout" rfl

/-! ## The `/api/analyze` route (`app/api/tasks.py` lines 13-69) -/

structure AnalyzeBody where
  task : Option String
  session_id : Option String
  owner : Option String
  repo : Option String
  github_token : Option String

/-- Python `str.strip()` whitespace (ASCII subset; the claims use only
these). -/
def pyWs (c : Char) : Bool :=
  c = ' ' ∨ c = '\t' ∨ c = '\n' ∨ c = '\r' ∨ c = '\x0b' ∨ c = '\x0c'

/-- `not task.strip()`: the string is empty or whitespace-only. -/
def blankStr (s : String) : Bool := s.data.all pyWs

/-- `not task or not task.strip()` over the optional body field. -/
def blankTask : Option String → Bool
  | none => true
  | some t => blankStr t

def errorResponse (msg : String) : Json := .obj [("error", .str msg)]

/-- The route body after validation: optional repo-context fetch
(`analyze_repo_structure`, an outbound GitHub call, logged), then the LLM
analysis; any raised exception becomes a 500 response. -/
def analyze_route_run (env : Env) (w : World) (body : AnalyzeBody)
    (session_id task : String) : World × (Json × Nat) :=
  let step : Except (World × String) (World × Option Json) :=
    if truthyStr body.owner ∧ truthyStr body.repo ∧ truthyStr body.github_token
    then
      let w := { w with http_calls :=
        w.http_calls ++ ["analyze_repo_structure"] }
      match env.repoStructure (body.owner.getD "") (body.repo.getD "") with
      | .error e => .error (w, e)
      | .ok rc => .ok (w, some rc)
    else .ok (w, none)
  match step with
  | .error (w, e) => (w, (errorResponse e, 500))
  | .ok (w, rc) =>
    match analyze_task_with_llm env w task (some session_id) rc
        body.owner body.repo with
    | (w, .error e) => (w, (errorResponse e, 500))
    | (w, .ok result) =>
      (w, (.obj [("session_id", .str session_id),
                 ("status", result.getD "status" .null),
                 ("analysis", result.getD "analysis" .null),
                 ("questions", result.getD "questions" .null),
                 ("search_queries", result.getD "search_queries" .null)], 200))

/-- `analyze()` (lines 13-69): derive the session id (fresh UUID when the
body carries none), reject a missing/blank task with a 400 before anything
else, then run the pipeline. -/
def analyze_route (env : Env) (w : World) (body : AnalyzeBody)
    (freshUuid : String) : World × (Json × Nat) :=
  let session_id :=
    if truthyStr body.session_id then body.session_id.getD "" else freshUuid
  match body.task with
  | none => (w, (errorResponse "task required", 400))
  | some task =>
    if blankStr task then (w, (errorResponse "task required", 400))
    else analyze_route_run env w body session_id task

/-- C6: a classify request whose task is missing, empty or whitespace-only
is rejected with the 400 `task required` error and the world — including
every outbound-call log — is exactly the input world: no network call of
any kind is made. -/
theorem C6_blank_task_rejected_before_network (env : Env) (w : World)
    (body : AnalyzeBody) (freshUuid : String)
    (h : blankTask body.task = true) :
    analyze_route env w body freshUuid =
      (w, (errorResponse "task required", 400)) := by
  unfold analyze_route
  cases htask : body.task with
  | none => rfl
  | some t =>
    rw [htask] at h
    simp only [blankTask] at h
    simp [h]

/-- C6 (witness): a whitespace-only task is rejected untouched. -/
theorem C6_blank_task_rejected_before_network_witness :
    analyze_route envDown World.empty
      ⟨some " \t ", some "s", some "o", some "r", some "tok"⟩ "uuid-1" =
      (World.empty, (errorResponse "task required", 400)) :=
  C6_blank_task_rejected_before_network envDown World.empty
    ⟨some " \t ", some "s", some "o", some "r", some "tok"⟩ "uuid-1" rfl

/-! ## Claim C8: the no-evidence warning in the clarity prompt -/

/-- The findings returned by a batch search, independent of the world. -/
def findingsOf (env : Env) (owner repo : String) (kws : List String) :
    List Finding :=
  match (searchLoop env owner repo (kws.take 3)).2 with
  | .ok results => results
  | .error _ => []

theorem search_result_eq (env : Env) (w : World) (owner repo : String)
    (kws : List String) :
    (search_codebase_for_keywords env w owner repo kws).1 =
      findingsOf env owner repo kws := by
  unfold search_codebase_for_keywords findingsOf
  dsimp only
  cases h : (searchLoop env owner repo (kws.take 3)).2 <;> simp [h]

/-- C8: when type detection resolves to an update-type task, owner and repo
are supplied, the prompt sent to the clarity model call is observable in the
call log; if the keyword search returned zero findings that prompt contains
the explicit no-evidence warning text, and if it returned findings the
prompt instead embeds the list of at most the first 5 found files. -/
theorem C8_clarity_prompt_warning (env : Env) (w : World) (task : String)
    (rc : Option Json) (owner repo : Option String)
    (resp1 : GeminiResp) (t1 : String) (rest1 : List String)
    (info tt kws rsn : Json)
    (h1 : env.gemini (type_detection_prompt rc task) = .ok resp1)
    (h1e : resp1.error = none)
    (h1c : resp1.candidates = some (t1 :: rest1))
    (hp : parse_json_from_text t1 "task type detection" = .ok info)
    (htt : info.get "task_type" = some tt)
    (hkw : info.get "keywords" = some kws)
    (hrs : info.get "reasoning" = some rsn)
    (hupd : isUpdateType tt = true)
    (ho : truthyStr owner = true) (hr : truthyStr repo = true) :
    (analyze_core env w task rc owner repo).1.gemini_calls =
      w.gemini_calls ++ [type_detection_prompt rc task,
        clarity_prompt rc task tt
          (findingsText (findingsOf env (owner.getD "") (repo.getD "")
            (keywordStrs kws)) tt)] ∧
    (findingsOf env (owner.getD "") (repo.getD "") (keywordStrs kws) = [] →
      ∃ a b, clarity_prompt rc task tt
        (findingsText (findingsOf env (owner.getD "") (repo.getD "")
          (keywordStrs kws)) tt) = a ++ no_code_warning ++ b) ∧
    (∀ f fs, findingsOf env (owner.getD "") (repo.getD "") (keywordStrs kws) =
        f :: fs →
      ∃ a b, clarity_prompt rc task tt
        (findingsText (findingsOf env (owner.getD "") (repo.getD "")
          (keywordStrs kws)) tt) =
        a ++ ("\n\nExisting Code Found:\n" ++
          joinSep "\n" (((f :: fs).take 5).map findingLine)) ++ b) := by
  refine ⟨?_, ?_, ?_⟩
  · unfold analyze_core
    dsimp only
    rw [h1]
    simp only [geminiTextWith, h1e, h1c, hp, htt, hkw, hrs]
    rw [if_pos ⟨hupd, ho, hr⟩]
    rw [search_result_eq, search_world_eq]
    repeat' split
    all_goals simp [List.append_assoc]
  · intro h0
    refine ⟨clarity_head rc task tt, clarity_tail, ?_⟩
    rw [h0]
    unfold clarity_prompt findingsText
    rw [if_pos hupd]
  · intro f fs h0
    refine ⟨clarity_head rc task tt, clarity_tail, ?_⟩
    rw [h0]
    rfl

/-- Environment for the C8 witness: type detection classifies the task as
`update`, and every code search succeeds with zero hits. -/
def envC8 : Env :=
  ⟨fun _ => .ok ⟨200, none,
      some ["\x7b\"task_type\": \"update\", \"keywords\": [\"login\"], \"reasoning\": \"r\"\x7d"],
      none⟩,
   fun _ => .ok ⟨200, []⟩,
   fun _ => .error "unused", fun _ => .error "unused",
   fun _ _ => .error "unused"⟩

/-- C8 (witness): with zero findings on an update-type task the clarity
prompt carries the warning text. -/
theorem C8_clarity_prompt_warning_witness :
    ∃ a b, clarity_prompt none "update the login page" (.str "update")
      (findingsText (findingsOf envC8 "o" "r"
        (keywordStrs (.arr [.str "login"]))) (.str "update")) =
      a ++ no_code_warning ++ b :=
  (C8_clarity_prompt_warning envC8 World.empty "update the login page" none
    (some "o") (some "r") _ _ _ _ _ _ _ rfl rfl rfl rfl rfl rfl rfl rfl
    rfl rfl).2.1 rfl

/-! ## `create_deep_project_context` (`ai_service.py` lines 324-469) -/

def tree_url (owner repo branch : String) : String :=
  "https://api.github.com/repos/" ++ owner ++ "/" ++ repo ++ "/git/trees/" ++
    branch ++ "?recursive=1"

def readme_url (owner repo : String) : String :=
  "https://api.github.com/repos/" ++ owner ++ "/" ++ repo ++ "/readme"

/-- Lines 371-412. -/
def deep_prompt (file_list_str readme_content : String) : String :=
  "You are a 10x Senior Solutions Architect. Perform a deep analysis of this GitHub repository to create a comprehensive \"Project Context\" summary.\n\n**Repository Information:**\n---\n**File Tree:**\n" ++
  file_list_str ++
  "\n\n**README.md:**\n" ++ readme_content ++
  "\n---\n\nAnalyze and generate a JSON object with:\n\n1. `project_summary`: One-paragraph description of the project\x27s purpose\n2. `tech_stack`: Object with keys: `language`, `framework_backend`, `framework_frontend`, `database`, `key_libraries`\n3. `architecture_overview`: Brief architecture description (e.g., \"Monolithic MVC\", \"Microservices\")\n4. `key_modules`: Array of core features/modules. For each:\n   - `module_name`: Name of the module\n   - `description`: What this module does\n   - `relevant_files`: Top 3-5 most important file paths for this module\n\nDo not guess. Prioritize accuracy.\n\nRespond ONLY with valid JSON:\n\x7b\n  \"project_summary\": \"...\",\n  \"tech_stack\": \x7b\n    \"language\": \"...\",\n    \"framework_backend\": \"...\",\n    \"framework_frontend\": \"...\",\n    \"database\": \"...\",\n    \"key_libraries\": [\"...\"]\n  \x7d,\n  \"architecture_overview\": \"...\",\n  \"key_modules\": [\n    \x7b\n      \"module_name\": \"...\",\n      \"description\": \"...\",\n      \"relevant_files\": [\"...\"]\n    \x7d\n  ]\n\x7d"

/-- `create_deep_project_context(owner, repo, github_token)`: cached context
returned as-is on a hit; on a miss, fetch the file tree (`main`, falling
back to `master` on non-success), best-effort README (empty on failure,
truncated to 3000 chars), one generative-model call, extraction, then a
cache write whose failure is swallowed (lines 451-462). -/
def create_deep_project_context (env : Env) (w : World) (owner repo : String) :
    World × Except String Json :=
  let repo_full_name := owner ++ "/" ++ repo
  match get_repo_context w repo_full_name with
  | (w, some cached) =>
    match cached.get "context_text" with
    | some (.json j) => (w, .ok j)
    | _ => (w, .error "KeyError: context_text")
  | (w, none) =>
    let u1 := tree_url owner repo "main"
    let w := { w with http_calls := w.http_calls ++ [u1] }
    match env.getTree u1 with
    | .error e => (w, .error ("Deep analysis failed: " ++ e))
    | .ok r1 =>
      let step2 : World × Except String TreeResp :=
        if r1.status ≠ 200 then
          let u2 := tree_url owner repo "master"
          ({ w with http_calls := w.http_calls ++ [u2] }, env.getTree u2)
        else (w, .ok r1)
      let w := step2.1
      match step2.2 with
      | .error e => (w, .error ("Deep analysis failed: " ++ e))
      | .ok tr =>
        let all_files := (tr.tree.filter (fun f => f.type = "blob")).map
          (fun f => f.path)
        let ru := readme_url owner repo
        let w := { w with http_calls := w.http_calls ++ [ru] }
        match env.getReadme ru with
        | .error e => (w, .error ("Deep analysis failed: " ++ e))
        | .ok rr =>
          let readme_content :=
            if rr.status = 200 then rr.content.take 3000 else ""
          let file_list_str := joinSep ", " (all_files.take 100)
          let p := deep_prompt file_list_str readme_content
          let w := { w with gemini_calls := w.gemini_calls ++ [p] }
          match geminiTextWith "Gemini API returned no candidates for deep analysis"
              none (env.gemini p) with
          | .error e => (w, .error ("Deep analysis failed: " ++ e))
          | .ok text =>
            match parse_json_from_text text "deep analysis" with
            | .error e => (w, .error ("Deep analysis failed: " ++ e.render))
            | .ok project_context =>
              let language := (project_context.getD "tech_stack"
                (.obj [])).getD "language" (.str "Unknown")
              let metadata : MVal := .doc
                [("file_count", .int all_files.length),
                 ("has_readme", .bool (readme_content ≠ "")),
                 ("tech_stack", .json (project_context.getD "tech_stack"
                   (.obj [])))]
              let sv := save_repo_context w repo_full_name project_context
                language metadata
              (sv.1, .ok project_context)

/-- Environment for the C1 demonstration: the repository has one file, a
README, and the model answers with a valid deep-analysis object. -/
def envC1 : Env :=
  ⟨fun _ => .ok ⟨200, none,
      some ["\x7b\"project_summary\": \"s\", \"tech_stack\": \x7b\"language\": \"Python\"\x7d\x7d"],
      none⟩,
   fun _ => .error "unused",
   fun _ => .ok ⟨200, [⟨"app.py", "blob"⟩]⟩,
   fun _ => .ok ⟨200, "Readme text"⟩,
   fun _ _ => .error "unused"⟩

/-- C1: the claim describes the intended caching behaviour, but the cache
write can never succeed: `save_repo_context` puts `access_count` both in
`$set` (value 0, inside the document) and in `$inc` (value 1), so MongoDB
rejects the update (`ConflictingUpdateOperators`) and the `except` branch
swallows it.  Consequently a successful first `create_deep_project_context`
call stores nothing, a second call in succession is again a cache miss that
re-invokes the generative model, and no access count is ever created, let
alone incremented. -/
theorem C1_cache_write_always_fails :
    (save_repo_context World.empty "o/r" (Json.obj []) (.str "Python")
      (.doc [])).2 = false ∧
    (save_repo_context World.empty "o/r" (Json.obj []) (.str "Python")
      (.doc [])).1.repo_contexts = [] ∧
    (create_deep_project_context envC1 World.empty "o" "r").2 =
      .ok (.obj [("project_summary", .str "s"),
                 ("tech_stack", .obj [("language", .str "Python")])]) ∧
    (create_deep_project_context envC1 World.empty "o" "r").1.repo_contexts
      = [] ∧
    (create_deep_project_context envC1 World.empty "o" "r").1.gemini_calls.length
      = 1 ∧
    (create_deep_project_context envC1
      (create_deep_project_context envC1 World.empty "o" "r").1 "o"
      "r").1.gemini_calls.length = 2 :=
  ⟨rfl, rfl, rfl, rfl, rfl, rfl⟩

/-! ## `generate_implementation_plan` (`ai_service.py` lines 477-602) -/

/-- `f"- {k}: {v}"` joined over the answers dict (line 499). -/
def answersText (answers : List (String × String)) : String :=
  joinSep "\n" (answers.map (fun kv => "- " ++ kv.1 ++ ": " ++ kv.2))

def planFindingLine (f : Json) : String :=
  "- " ++ pyStr (f.getD "file" .null)

/-- Lines 502-506. -/
def plan_findings_text (findings : List Json) : String :=
  match findings with
  | [] => ""
  | _ :: _ =>
    "\n\nExisting Code to Modify:\n" ++
      joinSep "\n" ((findings.take 5).map planFindingLine)

/-- Lines 508-543. -/
def plan_prompt (task task_type : String) (answers : List (String × String))
    (ftext : String) : String :=
  "You are a senior project manager. Create a detailed implementation plan.\n\nTask: \"" ++
  task ++ "\"\nTask Type: " ++ task_type.toUpper ++ "\n" ++
  (if answers.isEmpty then ""
   else "\nClarifications:\n" ++ answersText answers) ++
  "\n" ++ ftext ++
  "\n\nInstructions:\n- If task type is \"new\": Create plan for building from scratch\n- If task type is \"update\": Focus on modifying existing code in the files listed\n- If task type is \"both\": Plan for both new features and modifications\n\nCreate 5-7 specific subtasks with:\n- Clear, actionable title\n- Detailed description\n- Suggested role (Frontend Dev, Backend Dev, Designer, etc.)\n- Realistic deadline (Day 1, Day 2, etc.)\n- Expected output/deliverable\n- Clarity score (0-100)\n\nReturn ONLY valid JSON:\n\x7b\n  \"main_task\": \"Task Title\",\n  \"goal\": \"What we\x27re achieving\",\n  \"task_type\": \"" ++
  task_type ++
  "\",\n  \"subtasks\": [\n    \x7b\n      \"title\": \"Subtask name\",\n      \"description\": \"Detailed steps\",\n      \"assigned_to\": \"Role\",\n      \"deadline\": \"Day X\",\n      \"output\": \"Deliverable\",\n      \"clarity_score\": 95\n    \x7d\n  ]\n\x7d"

/-- `if session_id and session_id in task_sessions:` (line 489). -/
def sessionFetch (w : World) (session_id : Option String) : Option Session :=
  match session_id with
  | some sid => if sid ≠ "" then getAssoc w.task_sessions sid else none
  | none => none

/-- `generate_implementation_plan(task, answers, session_id, team_members)`:
lines 487-495 read the prior classification from the in-memory session
store, defaulting `task_type` to `"new"` and the findings to `[]` when the
session id is absent or unknown; then one model call, extraction, and a
swallowed history append keyed by the session id.  A non-string stored
`task_type` (`.upper()`), or truthy non-list stored findings (slicing),
would raise before the `try` block — surfaced here as the corresponding
error. -/
def generate_implementation_plan (env : Env) (w : World) (task : String)
    (answers : List (String × String)) (session_id : Option String) :
    World × Except String Json :=
  let fetched := sessionFetch w session_id
  let ttJ := match fetched with
    | some s => s.analysis.getD "task_type" (.str "new")
    | none => .str "new"
  let fdJ := match fetched with
    | some s => s.analysis.getD "codebase_findings" (.arr [])
    | none => .arr []
  let ttE : Except String String :=
    match ttJ with
    | .str s => .ok s
    | _ => .error "AttributeError: upper"
  let fdE : Except String (List Json) :=
    match fdJ with
    | .arr l => .ok l
    | j => if truthyJson j then .error "TypeError: not a list" else .ok []
  match ttE, fdE with
  | .error e, _ => (w, .error e)
  | .ok _, .error e => (w, .error e)
  | .ok task_type, .ok findings =>
    let p := plan_prompt task task_type answers (plan_findings_text findings)
    let w := { w with gemini_calls := w.gemini_calls ++ [p] }
    match geminiTextWith "Gemini API returned no candidates for plan generation"
        (some "Content blocked: ") (env.gemini p) with
    | .error e => (w, .error ("Gemini API failed: " ++ e))
    | .ok text =>
      match parse_json_from_text text "plan generation" with
      | .error e => (w, .error ("Gemini API failed: " ++ e.render))
      | .ok result =>
        let w := if truthyStr session_id then
            (save_conversation_history w (session_id.getD "") task none
              (some result)).1
          else w
        (w, .ok result)

theorem save_hist_gemini_calls (w : World) (sid prompt : String)
    (a p : Option Json) :
    (save_conversation_history w sid prompt a p).1.gemini_calls =
      w.gemini_calls := by
  unfold save_conversation_history now
  dsimp only
  split <;> rfl

/-- C7: when the session id is absent (or names a session that was never
classified), plan generation builds its prompt with `task_type = "new"` and
empty codebase findings, and still produces the extracted Plan whenever the
model call succeeds — the generator functions session-less. -/
theorem C7_plan_defaults_sessionless (env : Env) (w : World) (task : String)
    (answers : List (String × String)) (sid : Option String)
    (hsess : ∀ s, sid = some s → s ≠ "" → getAssoc w.task_sessions s = none) :
    (generate_implementation_plan env w task answers sid).1.gemini_calls =
      w.gemini_calls ++
        [plan_prompt task "new" answers (plan_findings_text [])] ∧
    (∀ resp t rest v,
      env.gemini (plan_prompt task "new" answers (plan_findings_text [])) =
        .ok resp →
      resp.error = none → resp.candidates = some (t :: rest) →
      parse_json_from_text t "plan generation" = .ok v →
      (generate_implementation_plan env w task answers sid).2 = .ok v) := by
  have hfetch : sessionFetch w sid = none := by
    unfold sessionFetch
    cases sid with
    | none => rfl
    | some s =>
      by_cases hs : s = ""
      · simp [hs]
      · simp [hs, hsess s rfl hs]
  constructor
  · unfold generate_implementation_plan
    rw [hfetch]
    dsimp only
    repeat' split
    all_goals simp [save_hist_gemini_calls]
  · intro resp t rest v h1 h2 h3 h4
    unfold generate_implementation_plan
    rw [hfetch]
    dsimp only
    rw [h1]
    simp only [geminiTextWith, h2, h3, h4]

/-- Environment for the C7 witness: the model returns a minimal plan. -/
def envC7 : Env :=
  ⟨fun _ => .ok ⟨200, none,
      some ["\x7b\"main_task\": \"t\", \"subtasks\": []\x7d"], none⟩,
   fun _ => .error "unused", fun _ => .error "unused",
   fun _ => .error "unused", fun _ _ => .error "unused"⟩

/-- C7 (witness): an unknown session id still yields the extracted Plan. -/
theorem C7_plan_defaults_sessionless_witness :
    (generate_implementation_plan envC7 World.empty "build a login page" []
      (some "never-classified")).2 =
      .ok (.obj [("main_task", .str "t"), ("subtasks", .arr [])]) :=
  (C7_plan_defaults_sessionless envC7 World.empty "build a login page" []
    (some "never-classified") (fun _ _ _ => rfl)).2 _ _ [] _ rfl rfl rfl rfl

/-! ## `summarize_slack_messages` (`ai_service.py` lines 605-697) -/

structure SlackMsg where
  user : Option String
  text : Option String

/-- Lines 622-626: `conversation_text += f"{user}: {text}\n"`. -/
def conversationText (messages : List SlackMsg) : String :=
  messages.foldl
    (fun acc m => acc ++ m.user.getD "Unknown" ++ ": " ++ m.text.getD "" ++ "\n")
    ""

/-- Lines 628-647. -/
def slack_prompt (conversation_text : String) : String :=
  "Analyze the following Slack channel conversation and provide a concise summary.\n\nSLACK MESSAGES:\n" ++
  conversation_text ++
  "\n\nGenerate a JSON response with this structure:\n\x7b\n  \"key_updates\": [\n    \x7b\"user\": \"User Name\", \"update\": \"Brief description of what they said/did\"\x7d,\n    ...\n  ],\n  \"active_users\": [\"List of users who participated\"],\n  \"blockers\": [\"Any blockers or issues mentioned\"],\n  \"progress_indicators\": [\"Any progress updates or completed tasks\"],\n  \"overall_status\": \"A one-sentence summary of the channel activity\",\n  \"sentiment\": \"positive/neutral/negative\",\n  \"action_items\": [\"Any action items or next steps mentioned\"]\n\x7d\n\nKeep updates brief (max 15 words each). Return ONLY valid JSON, no markdown, no code blocks."

/-- The body of the `try` block (lines 620-683): note this call site checks
the HTTP status and only the *presence* of `candidates` — an empty list
then raises `IndexError` at `[0]`, also caught by the fallback. -/
def summarize_core (env : Env) (messages : List SlackMsg) :
    Except String Json :=
  match env.gemini (slack_prompt (conversationText messages)) with
  | .error e => .error e
  | .ok resp =>
    if resp.status ≠ 200 then
      .error ("Gemini API returned status " ++ toString resp.status)
    else
      match resp.candidates with
      | none => .error "No candidates in Gemini response"
      | some [] => .error "list index out of range"
      | some (t :: _) =>
        match parse_json_from_text t "slack summary" with
        | .error e => .error e.render
        | .ok j => .ok j

/-- `list(set(msg.get('user', 'Unknown') for ...))`: deduplicated user
names (Python's set iteration order is unspecified; only membership and
duplicate-freeness are meaningful). -/
def slackUsers (messages : List SlackMsg) : List String :=
  (messages.map (fun m => m.user.getD "Unknown")).dedup

/-- Lines 688-697. -/
def fallbackSummary (messages : List SlackMsg) (e : String) : Json :=
  .obj [("key_updates", .arr []),
        ("active_users", .arr ((slackUsers messages).map .str)),
        ("blockers", .arr []),
        ("progress_indicators", .arr []),
        ("overall_status", .str ("Channel has " ++ toString messages.length ++
          " recent messages")),
        ("sentiment", .str "neutral"),
        ("action_items", .arr []),
        ("error", .str e)]

/-- `summarize_slack_messages`: total — every internal failure is caught
and answered with the fallback summary. -/
def summarize_slack_messages (env : Env) (messages : List SlackMsg) : Json :=
  match summarize_core env messages with
  | .ok j => j
  | .error e => fallbackSummary messages e

/-- C10: `summarize_slack_messages` never propagates an exception (it is a
total function into summaries); on any internal failure it returns the
fallback summary, whose `active_users` is exactly the deduplicated set of
user names of the input messages, whose `sentiment` is `"neutral"`, and
which carries the failure message in its `error` field. -/
theorem C10_slack_summary_fallback (env : Env) (messages : List SlackMsg)
    (e : String) (h : summarize_core env messages = .error e) :
    summarize_slack_messages env messages = fallbackSummary messages e ∧
    (summarize_slack_messages env messages).get "sentiment" =
      some (.str "neutral") ∧
    (summarize_slack_messages env messages).get "error" = some (.str e) ∧
    ∃ users : List String,
      (summarize_slack_messages env messages).get "active_users" =
        some (.arr (users.map .str)) ∧
      users.Nodup ∧
      ∀ u, u ∈ users ↔ u ∈ messages.map (fun m => m.user.getD "Unknown") := by
  have hs : summarize_slack_messages env messages = fallbackSummary messages e := by
    unfold summarize_slack_messages
    rw [h]
  refine ⟨hs, ?_, ?_, ?_⟩
  · rw [hs]; rfl
  · rw [hs]; rfl
  · refine ⟨slackUsers messages, ?_, ?_, ?_⟩
    · rw [hs]; rfl
    · exact List.nodup_dedup _
    · intro u
      exact List.mem_dedup

/-- C10 (witness): a timed-out model call yields the neutral fallback with
deduplicated users. -/
theorem C10_slack_summary_fallback_witness :
    summarize_slack_messages envDown
      [⟨some "alice", some "hi"⟩, ⟨none, some "x"⟩, ⟨some "alice", some "yo"⟩] =
      fallbackSummary
        [⟨some "alice", some "hi"⟩, ⟨none, some "x"⟩, ⟨some "alice", some "yo"⟩]
        "timeout" :=
  (C10_slack_summary_fallback envDown
    [⟨some "alice", some "hi"⟩, ⟨none, some "x"⟩, ⟨some "alice", some "yo"⟩]
    "timeout" rfl).1
